import Mathlib

/-!
Shallow embedding of the Scrypted Cloud plugin core (the `ScryptedCloud`
class): forwarding-mode authority computation, relay registration, the
UPnP port-forward refresh cycle, the reverse-connection pool, the relay
callback throttle, the whitelist cache and the cloudflared log-driven
hostname discovery.

Conventions used throughout the embedding:
* JavaScript strings that may be `undefined` but are only ever tested for
  truthiness are modelled as `String` with `""` standing for both the
  empty string and `undefined`.
* JavaScript numbers that may be `undefined` are modelled as `Option Nat`
  (`none` = `undefined`); where the source tests plain truthiness
  (`!upnpPort`) both `none` and `some 0` are falsy.
* Asynchronous I/O results (relay HTTP responses, the resolved external
  IP, scope tokens) are passed in as explicit parameters.
* A thrown JavaScript exception is an `Except.error` carrying the message,
  or an explicit `thrown` field when the mutation of state before the
  throw matters.
-/

/-- The four choices of the `forwardingMode` storage setting. -/
inductive ForwardingMode where
  | upnp
  | routerForward
  | customDomain
  | disabled
deriving DecidableEq

/-- The slice of `storageSettings.values` (plus the in-memory
`cloudflareTunnelHost` getter and the `securePort` field) read and written
by the embedded operations. -/
structure CloudState where
  forwardingMode : ForwardingMode
  hostname : String
  duckDnsToken : String
  duckDnsHostname : String
  duckDnsCertValid : Bool
  upnpPort : Option Nat
  securePort : Nat
  lastPersistedUpnpPort : Option Nat
  lastPersistedIp : Option String
  lastPersistedRegistrationId : Option String
  token_info : Option String
  connectHomeScryptedApp : Bool
  cloudflaredTunnelToken : String
  cloudflareTunnelHost : Option String
  serverId : String
  serverName : String
  registrationSecret : String
deriving DecidableEq

/-- Default relay host (`localStorage` override absent). -/
def SCRYPTED_SERVER : String := "home.scrypted.app"

/-- Soft-failure message when the connect toggle is off. -/
def connectDisabledError : String :=
  "Scrypted Cloud connection to " ++ SCRYPTED_SERVER ++ " is disabled."

/-- Soft-failure message (and alert) when no bearer token is stored. -/
def notLoggedInError : String :=
  "Login to the Scrypted Cloud plugin to reach this server from the cloud, or disable this alert in the Scrypted Cloud plugin Connection settings."

/-- Error thrown when Custom Domain mode has no hostname. -/
def customDomainHostnameError : String :=
  "Hostname is required for port Custom Domain setup."

/-- Error thrown by `getAuthority` when a bare port is 443. -/
def port443NotAllowedError : String :=
  "Port 443 requires Custom Domain configuration."

/-- Error thrown from the dead Duck DNS certificate branch (source text has
an apostrophe in the first word, omitted here). -/
def letsEncryptError : String := "Lets Encrypt Error. See Console Logs."

/-- Error thrown when the Duck DNS update call fails. -/
def duckDnsError : String := "Duck DNS Error. See Console Logs."

/-- Warning alert raised when the relay reports a different IP. -/
def cloudNotVerifiedWarning (hostname : String) : String :=
  "Scrypted Cloud could not verify the IP Address of your custom domain " ++ hostname ++ "."

/-- Error thrown by `whitelist` when no token is stored. -/
def cloudNotLoggedInError : String := "@scrypted/cloud is not logged in."

/-- JavaScript `a && b` on strings: falsy (`""`) left operand short-circuits. -/
def jsAndStr (a b : String) : String := if a = "" then a else b

/-- The externally advertised address object built by `getAuthority`:
`upnp_port` and `port` carry the same value, `hostname` is present only
when truthy. `{}` (all fields absent) is the Disabled-mode authority. -/
structure Authority where
  upnp_port : Option Nat := none
  port : Option Nat := none
  hostname : Option String := none
deriving DecidableEq

/-- The `upnp_port` value `getAuthority` computes for a non-Disabled mode:
443 for Custom Domain, the stored `upnpPort` otherwise. -/
def authorityUpnpPort (s : CloudState) : Option Nat :=
  if s.forwardingMode = .customDomain then some 443 else s.upnpPort

/-- The hostname value `getAuthority` computes for a non-Disabled mode:
the `hostname` setting for Custom Domain, otherwise the JavaScript
conjunction `duckDnsToken && duckDnsHostname`. -/
def authorityHostname (s : CloudState) : String :=
  if s.forwardingMode = .customDomain then s.hostname
  else jsAndStr s.duckDnsToken s.duckDnsHostname

/-- `getAuthority()`: Disabled returns `{}`; otherwise a port of 443
without a truthy hostname raises a user-visible configuration error
(`this.log.a` then `throw`), else the authority is returned with the
hostname included only when truthy. -/
def getAuthority (s : CloudState) : Except String Authority :=
  if s.forwardingMode = .disabled then .ok {}
  else if authorityUpnpPort s = some 443 ∧ authorityHostname s = "" then
    .error (if s.forwardingMode = .customDomain then customDomainHostnameError
            else port443NotAllowedError)
  else if authorityHostname s = "" then
    .ok { upnp_port := authorityUpnpPort s, port := authorityUpnpPort s }
  else
    .ok { upnp_port := authorityUpnpPort s, port := authorityUpnpPort s,
          hostname := some (authorityHostname s) }

/-- The relay registration endpoint response, as seen by
`sendRegistrationId`: a JSON body with an `ip_address`, a JSON body with an
`error`, or a network-level failure (the `catch` branch). -/
inductive RelayReply where
  | ok (ip_address : String)
  | relayError (message : String)
  | netFail (message : String)
deriving DecidableEq

/-- The relevant fields of the registration response body. -/
structure RegBody where
  error : Option String := none
  ip_address : Option String := none
deriving DecidableEq

/-- Result of `sendRegistrationId`: the state after the call, the returned
body (or a propagated thrown error), and the user alerts it posted. -/
structure SendOutcome where
  state : CloudState
  result : Except String RegBody
  alerts : List String

/-- `sendRegistrationId(registration_id, force?)`.  The authority is
computed first (its configuration error propagates out).  A disabled
connect toggle or a missing bearer token yields a structured `{error}`
result; only the missing-token branch posts an alert.  A relay-reported
error is returned (with an alert) without persisting anything; a network
failure is caught into `{error}`.  Success persists the registration id
and `authority.upnp_port` as the new change-detection baseline. -/
def sendRegistrationId (s : CloudState) (registration_id : String) (force : Bool)
    (reply : RelayReply) : SendOutcome :=
  match getAuthority s with
  | .error e => { state := s, result := .error e, alerts := [e] }
  | .ok authority =>
    if s.connectHomeScryptedApp = false then
      { state := s, result := .ok { error := some connectDisabledError }, alerts := [] }
    else
      match s.token_info with
      | none =>
        { state := s, result := .ok { error := some notLoggedInError },
          alerts := [notLoggedInError] }
      | some _ =>
        match reply with
        | .relayError m => { state := s, result := .ok { error := some m }, alerts := [m] }
        | .netFail m => { state := s, result := .ok { error := some m }, alerts := [] }
        | .ok ip =>
          { state := { s with lastPersistedRegistrationId := some registration_id,
                              lastPersistedUpnpPort := authority.upnp_port },
            result := .ok { ip_address := some ip }, alerts := [] }

/-- The asynchronous inputs consumed by one `updatePortForward` run:
the registration id from the push manager, the body of `/_punch/ip`, the
relay registration reply, and whether the Duck DNS update call succeeds. -/
structure UpdateEnv where
  registrationId : String
  externalIp : String
  relayReply : RelayReply
  duckDnsOk : Bool := true
deriving DecidableEq

/-- Result of `updatePortForward`: the state after the run (mutations made
before a throw are kept), whether `sendRegistrationId` was invoked, the
alerts posted, and the thrown error if any. -/
structure UpdateOutcome where
  state : CloudState
  sendCalled : Bool
  alerts : List String
  thrown : Option String
deriving DecidableEq

/-- The IP-resolution step of `updatePortForward`: trust the Custom Domain
hostname (throwing when it is missing); the configured Duck DNS branch
always ends in a throw (its certificate half is `not implemented` in the
source); otherwise use the cloudflare tunnel host if present, else the
relay-reported external IP. -/
def resolveIp (s : CloudState) (env : UpdateEnv) : Except String String :=
  if s.forwardingMode = .customDomain then
    if s.hostname = "" then .error customDomainHostnameError else .ok s.hostname
  else if s.duckDnsHostname ≠ "" ∧ s.duckDnsToken ≠ "" then
    .error (if env.duckDnsOk then letsEncryptError else duckDnsError)
  else
    .ok (match s.cloudflareTunnelHost with
         | some h => h
         | none => env.externalIp)

/-- `updatePortForward(upnpPort)`: stores the port, resolves the
externally-visible IP, overrides the compared port to 443 for Custom
Domain or an active cloudflare tunnel, and re-sends the registration only
when the compared `(port, ip)` pair differs from the persisted
`(lastPersistedUpnpPort, lastPersistedIp)` baseline.  On a successful
registration without relay error the IP baseline is persisted and a
mismatching relay-reported IP raises a non-fatal warning. -/
def updatePortForward (s : CloudState) (p : Option Nat) (env : UpdateEnv) : UpdateOutcome :=
  let s1 : CloudState := { s with upnpPort := p }
  match resolveIp s1 env with
  | .error e => { state := s1, sendCalled := false, alerts := [], thrown := some e }
  | .ok ip =>
    let p1 : Option Nat :=
      if s1.forwardingMode = .customDomain ∨ s1.cloudflareTunnelHost.isSome then some 443 else p
    if s1.lastPersistedUpnpPort ≠ p1 ∨ s1.lastPersistedIp ≠ some ip then
      let sr := sendRegistrationId s1 env.registrationId false env.relayReply
      match sr.result with
      | .error e =>
        { state := sr.state, sendCalled := true, alerts := sr.alerts, thrown := some e }
      | .ok body =>
        if body.error.isSome then
          { state := sr.state, sendCalled := true, alerts := sr.alerts, thrown := none }
        else
          let warn : List String :=
            if ip ≠ "localhost" ∧ some ip ≠ body.ip_address ∧
                some ip ≠ s1.cloudflareTunnelHost then
              [cloudNotVerifiedWarning s1.hostname]
            else []
          { state := { sr.state with lastPersistedIp := some ip },
            sendCalled := true, alerts := sr.alerts ++ warn, thrown := none }
    else
      { state := s1, sendCalled := false, alerts := [], thrown := none }

/-- JavaScript `Math.round` on the nonnegative values used here:
`floor (x + 1/2)`. -/
def jsMathRound (x : ℚ) : ℤ := ⌊x + 1 / 2⌋

/-- `Math.round(Math.random() * 20000 + 40000)`, the port chosen when no
`upnpPort` is stored; `r` stands for the `Math.random()` draw in `[0,1)`. -/
def chosenUpnpPort (r : ℚ) : ℕ := (jsMathRound (r * 20000 + 40000)).toNat

/-- TTL, in seconds, of the requested UPnP mapping. -/
def upnpMappingTtlSeconds : Nat := 1800

/-- Period, in milliseconds, of the `refreshPortForward` interval timer. -/
def upnpRenewIntervalMs : Nat := 30 * 60 * 1000

/-- Debounce delay of `scheduleRefreshPortForward`, in milliseconds. -/
def refreshDebounceMs : Nat := 1000

/-- Target size of the reverse connection pool. -/
def reverseConnectionWatermark : Nat := 10

/-- Suppression window for relay callback messages, in milliseconds. -/
def callbackThrottleMs : Nat := 5000

/-- The UPnP mapping request issued by `refreshPortForward`. -/
structure MappingRequest where
  publicPort : Nat
  privateHost : String
  privatePort : Nat
  ttl : Nat
deriving DecidableEq

/-- The action `refreshPortForward` takes: hand a port to
`updatePortForward`, refuse port 443, give up for lack of a local address,
or issue a UPnP mapping request and call `updatePortForward` with the
given port on mapping success. -/
inductive RefreshOutcome where
  | update (port : Option Nat)
  | portNotAllowed
  | noLocalAddress
  | upnpMapping (req : MappingRequest) (onSuccessPort : Nat)
deriving DecidableEq

/-- `refreshPortForward()`:  a falsy stored `upnpPort` is replaced by a
random draw; Disabled and Router Forward modes go straight to
`updatePortForward` with that port (Disabled skipping the 443 check is
source order: the Disabled branch precedes it); Custom Domain passes the
*stored* `upnpPort`; UPNP mode requests a mapping of the chosen public
port onto `{host: localAddress, port: securePort}` with the fixed TTL. -/
def refreshPortForward (s : CloudState) (r : ℚ) (localAddress : Option String) :
    RefreshOutcome :=
  let p : Nat := if s.upnpPort.getD 0 = 0 then chosenUpnpPort r else s.upnpPort.getD 0
  if s.forwardingMode = .disabled then .update (some p)
  else if p = 443 then .portNotAllowed
  else if s.forwardingMode = .routerForward then .update (some p)
  else if s.forwardingMode = .customDomain then .update s.upnpPort
  else
    match localAddress with
    | none => .noLocalAddress
    | some addr => .upnpMapping ⟨p, addr, s.securePort, upnpMappingTtlSeconds⟩ p

/-- One pooled reverse connection: identity and whether the relay has
claimed it (the `claimed` local of `createReverseConnection`). -/
structure Conn where
  id : Nat
  claimed : Bool
deriving DecidableEq

/-- The reverse connection pool: the `reverseConnections` set, a fresh-id
counter standing for object identity, and a running count of connection
creations (replacement attempts). -/
structure PoolState where
  conns : List Conn
  nextId : Nat
  created : Nat
deriving DecidableEq

/-- The synchronous part of `createReverseConnection`: a new unclaimed
connection is added to the set. -/
def createReverseConnection (s : PoolState) : PoolState :=
  { conns := s.conns ++ [⟨s.nextId, false⟩], nextId := s.nextId + 1,
    created := s.created + 1 }

/-- `ensureReverseConnections`: top the pool up to the watermark,
creating one connection per loop iteration. -/
def ensureReverseConnections (s : PoolState) : PoolState :=
  if h : s.conns.length < reverseConnectionWatermark then
    ensureReverseConnections (createReverseConnection s)
  else s
termination_by reverseConnectionWatermark - s.conns.length
decreasing_by
  simp only [createReverseConnection, List.length_append, List.length_cons,
    List.length_nil]
  omega

/-- The `close` handler installed by `createReverseConnection`: the
connection is deleted from the set, and only a claimed connection
triggers a pool refill. -/
def closeConn (s : PoolState) (c : Conn) : PoolState :=
  let s1 : PoolState := { s with conns := s.conns.filter (fun x => x.id != c.id) }
  if c.claimed then ensureReverseConnections s1 else s1

/-- The relay claim event (`readLine` resolving) for the connection with
the given id: its `claimed` flag becomes true. -/
def claimConn (s : PoolState) (i : Nat) : PoolState :=
  { s with conns := s.conns.map (fun c => if c.id = i then { c with claimed := true } else c) }

/-- Result of one relay `callback` message: the new `backoff` timestamp
and whether a TLS connection back to the relay was attempted. -/
structure CallbackOutcome where
  backoff : Nat
  tlsConnect : Bool
deriving DecidableEq

/-- The `callback` branch of the push-message handler: messages arriving
within the throttle window of the last handled one are dropped before any
connection is attempted; otherwise the timestamp is recorded and the TLS
dial-back proceeds.  `backoff` starts at 0 at startup. -/
def handleCallbackMessage (backoff now : Nat) : CallbackOutcome :=
  if now < backoff + callbackThrottleMs then { backoff := backoff, tlsConnect := false }
  else { backoff := now, tlsConnect := true }

/-- `getSSLHostname()`: the JavaScript `||` chain over three `&&`
conjunctions; `none` is the all-falsy result. -/
def getSSLHostname (s : CloudState) : Option String :=
  if s.forwardingMode = .customDomain ∧ s.hostname ≠ "" then some s.hostname
  else if s.cloudflaredTunnelToken ≠ "" ∧ s.cloudflareTunnelHost.isSome then
    s.cloudflareTunnelHost
  else if s.duckDnsCertValid ∧ s.duckDnsHostname ≠ "" ∧ s.upnpPort.getD 0 ≠ 0 then
    some (s.duckDnsHostname ++ ":" ++ toString (s.upnpPort.getD 0))
  else none

/-- The scope tokens returned by the relay `/_punch/scope` call. -/
structure ScopeTokens where
  userToken : String
  userTokenSignature : String
deriving DecidableEq

/-- The query string appended to a freshly signed URL. -/
def scopeQueryString (t : ScopeTokens) : String :=
  "user_token=" ++ t.userToken ++ "&user_token_signature=" ++ t.userTokenSignature

/-- The `whitelisted` map, as an association list (first match wins;
insertion prepends, matching `Map.set` followed by `Map.get`). -/
def cacheGet : List (String × String) → String → Option String
  | [], _ => none
  | (k, v) :: rest, p => if k = p then some v else cacheGet rest p

/-- Result of one `whitelist` call: the produced URL, the cache after the
call, and whether the relay scope endpoint was hit. -/
structure WhitelistResult where
  url : String
  cache : List (String × String)
  scopeCalled : Bool
deriving DecidableEq

/-- `whitelist(localUrl, ttl, baseUrl)` over the already-extracted
`local.pathname`:  a truthy SSL hostname short-circuits to
`baseUrl + pathname`; a cached pathname returns the cached URL; otherwise
a missing token throws, else the scope endpoint is called and the signed
URL is cached and returned.  (`ttl` only travels inside the scope request;
the scope reply is the `scope` parameter.) -/
def whitelist (s : CloudState) (cache : List (String × String)) (localPathname : String)
    (ttl : Nat) (baseUrl : String) (scope : ScopeTokens) : Except String WhitelistResult :=
  if (getSSLHostname s).isSome then
    .ok { url := baseUrl ++ localPathname, cache := cache, scopeCalled := false }
  else
    match cacheGet cache localPathname with
    | some url => .ok { url := url, cache := cache, scopeCalled := false }
    | none =>
      match s.token_info with
      | none => .error cloudNotLoggedInError
      | some _ =>
        let url := baseUrl ++ localPathname ++ "?" ++ scopeQueryString scope
        .ok { url := url, cache := (localPathname, url) :: cache, scopeCalled := true }


/-!  Cloudflared hostname discovery (`startCloudflared`): each stderr line
is matched against the regular expression `config=(".*?}")`; the captured
group is JSON-parsed twice (the config is a doubly encoded JSON string),
then `parsed.ingress?.[0]?.hostname` decides the resolution: a falsy
hostname resolves `undefined`, a truthy one resolves `https://` followed
by the hostname, and any caught parse/type error resolves nothing.
Lines are modelled as `List Char`; literal braces, quotes and backslashes
are written as character constants to keep them out of string literals. -/

/-- Double-quote character. -/
def dq : Char := '"'

/-- Backslash character. -/
def bs : Char := '\\'

/-- Opening brace character. -/
def obr : Char := '{'

/-- Closing brace character. -/
def cbr : Char := '}'

/-- The literal part of the pattern up to and including the opening quote
of the capture group: `config=` followed by `"`. -/
def configMarker : List Char := "config=".toList ++ [dq]

/-- Does `pat` start the list? -/
def charsStart : List Char → List Char → Bool
  | [], _ => true
  | _ :: _, [] => false
  | p :: ps, c :: cs => p == c && charsStart ps cs

/-- The lazy tail of the capture group `.*?}"`: consume characters until
the first `}` immediately followed by `"`, keeping both; fail when no
such terminator exists in the line. -/
def captureBody : List Char → Option (List Char)
  | [] => none
  | c :: cs =>
    if c = cbr ∧ cs.head? = some dq then some [cbr, dq]
    else (captureBody cs).map (fun l => c :: l)

/-- The first match of `config=(".*?}")` in the line, as the text of the
capture group (both quotes included); a position where the marker matches
but no terminator follows is skipped, as a backtracking regex engine
does. -/
def configCapture : List Char → Option (List Char)
  | [] => none
  | c :: cs =>
    if charsStart configMarker (c :: cs) then
      match captureBody (List.drop 7 cs) with
      | some body => some (dq :: body)
      | none => configCapture cs
    else configCapture cs

/-- JSON values.  Numbers keep only their integer part (the extraction
logic never reads a numeric value; the parser still consumes fraction and
exponent text). -/
inductive Json where
  | null
  | bool (b : Bool)
  | num (n : Int)
  | str (s : List Char)
  | arr (elems : List Json)
  | obj (fields : List (List Char × Json))

/-- Value of a hexadecimal digit. -/
def hexDigitVal (c : Char) : Option Nat :=
  if '0' ≤ c ∧ c ≤ '9' then some (c.toNat - '0'.toNat)
  else if 'a' ≤ c ∧ c ≤ 'f' then some (c.toNat - 'a'.toNat + 10)
  else if 'A' ≤ c ∧ c ≤ 'F' then some (c.toNat - 'A'.toNat + 10)
  else none

/-- The single-character JSON string escapes. -/
def unescapeChar (c : Char) : Option Char :=
  if c = dq then some dq
  else if c = bs then some bs
  else if c = '/' then some '/'
  else if c = 'b' then some (Char.ofNat 8)
  else if c = 'f' then some (Char.ofNat 12)
  else if c = 'n' then some '\n'
  else if c = 'r' then some (Char.ofNat 13)
  else if c = 't' then some '\t'
  else none

mutual

/-- Body of a JSON string literal, after the opening quote: the unescaped
content and the text after the closing quote.  (Unescaped control
characters are tolerated here; the extraction pipeline never feeds any.)
Split into a mutual pair so each recursion is on a direct tail. -/
def parseStringBody : List Char → Option (List Char × List Char)
  | [] => none
  | c :: cs =>
    if c = dq then some ([], cs)
    else if c = bs then parseStringEsc cs
    else (parseStringBody cs).map (fun p => (c :: p.1, p.2))

def parseStringEsc : List Char → Option (List Char × List Char)
  | [] => none
  | e :: rest =>
    if e = 'u' then
      match rest with
      | h1 :: h2 :: h3 :: h4 :: rest2 =>
        match hexDigitVal h1, hexDigitVal h2, hexDigitVal h3, hexDigitVal h4 with
        | some a, some b, some d, some f =>
          (parseStringBody rest2).map
            (fun p => (Char.ofNat (((a * 16 + b) * 16 + d) * 16 + f) :: p.1, p.2))
        | _, _, _, _ => none
      | _ => none
    else
      match unescapeChar e with
      | some u => (parseStringBody rest).map (fun p => (u :: p.1, p.2))
      | none => none

end

/-- Skip JSON whitespace. -/
def skipWs : List Char → List Char
  | [] => []
  | c :: cs =>
    if c = ' ' ∨ c = '\t' ∨ c = '\n' ∨ c = Char.ofNat 13 then skipWs cs else c :: cs

/-- Split a list into head and tail. -/
def splitHead : List Char → Option (Char × List Char)
  | [] => none
  | c :: cs => some (c, cs)

/-- Expect the given literal characters, returning the remainder. -/
def expectChars : List Char → List Char → Option (List Char)
  | [], rest => some rest
  | _ :: _, [] => none
  | p :: ps, c :: cs => if c = p then expectChars ps cs else none

/-- Take a (possibly empty) run of decimal digits. -/
def takeDigits : List Char → List Char × List Char
  | [] => ([], [])
  | c :: cs =>
    if '0' ≤ c ∧ c ≤ '9' then
      let p := takeDigits cs
      (c :: p.1, p.2)
    else ([], c :: cs)

/-- Decimal value of a digit run. -/
def digitsToNat (ds : List Char) : Nat :=
  ds.foldl (fun acc c => acc * 10 + (c.toNat - '0'.toNat)) 0

/-- Consume an optional fraction part. -/
def dropFraction (cs : List Char) : List Char :=
  match cs with
  | '.' :: rest => (takeDigits rest).2
  | _ => cs

/-- Consume an optional exponent part. -/
def dropExponent (cs : List Char) : List Char :=
  match cs with
  | [] => []
  | c :: rest =>
    if c = 'e' ∨ c = 'E' then
      match rest with
      | [] => []
      | sgn :: rest2 =>
        if sgn = '+' ∨ sgn = '-' then (takeDigits rest2).2 else (takeDigits rest).2
    else c :: rest

/-- A JSON number; the value kept is its integer part. -/
def parseNumber (cs : List Char) : Option (Int × List Char) :=
  match cs with
  | '-' :: rest =>
    match takeDigits rest with
    | ([], _) => none
    | (ds, rest2) => some (-(digitsToNat ds : Int), dropExponent (dropFraction rest2))
  | _ =>
    match takeDigits cs with
    | ([], _) => none
    | (ds, rest2) => some ((digitsToNat ds : Int), dropExponent (dropFraction rest2))

mutual

/-- Fuelled recursive-descent JSON value parser. -/
def parseValue : Nat → List Char → Option (Json × List Char)
  | 0, _ => none
  | fuel + 1, input =>
    match splitHead (skipWs input) with
    | none => none
    | some (c, rest) =>
      if c = 'n' then (expectChars "ull".toList rest).map (fun r => (.null, r))
      else if c = 't' then (expectChars "rue".toList rest).map (fun r => (.bool true, r))
      else if c = 'f' then (expectChars "alse".toList rest).map (fun r => (.bool false, r))
      else if c = dq then (parseStringBody rest).map (fun p => (.str p.1, p.2))
      else if c = '[' then
        match splitHead (skipWs rest) with
        | none => none
        | some (c2, rest2) =>
          if c2 = ']' then some (.arr [], rest2)
          else (parseItems fuel (c2 :: rest2)).map (fun p => (.arr p.1, p.2))
      else if c = obr then
        match splitHead (skipWs rest) with
        | none => none
        | some (c2, rest2) =>
          if c2 = cbr then some (.obj [], rest2)
          else (parseFields fuel (c2 :: rest2)).map (fun p => (.obj p.1, p.2))
      else (parseNumber (c :: rest)).map (fun p => (.num p.1, p.2))

/-- Comma-separated array items up to the closing bracket. -/
def parseItems : Nat → List Char → Option (List Json × List Char)
  | 0, _ => none
  | fuel + 1, input =>
    (parseValue fuel input).bind (fun vp =>
      (splitHead (skipWs vp.2)).bind (fun p2 =>
        if p2.1 = ',' then (parseItems fuel p2.2).map (fun p => (vp.1 :: p.1, p.2))
        else if p2.1 = ']' then some ([vp.1], p2.2)
        else none))

/-- Comma-separated `"key": value` object fields up to the closing brace. -/
def parseFields : Nat → List Char → Option (List (List Char × Json) × List Char)
  | 0, _ => none
  | fuel + 1, input =>
    (splitHead (skipWs input)).bind (fun p1 =>
      if p1.1 = dq then
        (parseStringBody p1.2).bind (fun kp =>
          (splitHead (skipWs kp.2)).bind (fun p2 =>
            if p2.1 = ':' then
              (parseValue fuel p2.2).bind (fun vp =>
                (splitHead (skipWs vp.2)).bind (fun p3 =>
                  if p3.1 = ',' then
                    (parseFields fuel p3.2).map (fun p => ((kp.1, vp.1) :: p.1, p.2))
                  else if p3.1 = cbr then some ([(kp.1, vp.1)], p3.2)
                  else none))
            else none))
      else none)

end

/-- `JSON.parse`: a complete value with only trailing whitespace; the fuel
bounds the nesting depth, two units per consumed character being ample. -/
def jsonParse (cs : List Char) : Option Json :=
  match parseValue (2 * cs.length + 2) cs with
  | some (v, rest) => if skipWs rest = [] then some v else none
  | none => none

mutual

/-- JavaScript string coercion `String(v)`, used both for the argument of
the second `JSON.parse` and for the template `https://` interpolation. -/
def jsToString : Json → List Char
  | .null => "null".toList
  | .bool true => "true".toList
  | .bool false => "false".toList
  | .num n => (toString n).toList
  | .str s => s
  | .arr es => jsToStringItems es
  | .obj _ => "[object Object]".toList

/-- `Array.prototype.toString`: elements joined with commas. -/
def jsToStringItems : List Json → List Char
  | [] => []
  | [x] => jsToStringItem x
  | x :: xs => jsToStringItem x ++ ',' :: jsToStringItems xs

/-- One array element under `Array.prototype.toString`: null renders as
the empty string. -/
def jsToStringItem : Json → List Char
  | .null => []
  | j => jsToString j

end

/-- The key `ingress`. -/
def ingressKey : List Char := "ingress".toList

/-- The key `hostname`. -/
def hostnameKey : List Char := "hostname".toList

/-- The property name an index `[0]` coerces to on a non-array object. -/
def zeroKey : List Char := "0".toList

/-- The scheme prepended to a discovered hostname. -/
def httpsScheme : List Char := "https://".toList

/-- Object property lookup where a duplicated key keeps the last value,
as `JSON.parse` does. -/
def lookupLast (kvs : List (List Char × Json)) (k : List Char) : Option Json :=
  kvs.foldl (fun acc kv => if kv.1 = k then some kv.2 else acc) none

/-- `v.k` member access: a `TypeError` on `null`, the property on an
object, `undefined` on every other value. -/
def jsMember : Json → List Char → Except Unit (Option Json)
  | .null, _ => .error ()
  | .obj kvs, k => .ok (lookupLast kvs k)
  | _, _ => .ok none

/-- `x?.[0]` on a possibly-`undefined` value: optional chaining
short-circuits `undefined` and `null`; an array yields its head, a string
its first character, an object its `"0"` property. -/
def jsOptIndexZero : Option Json → Option Json
  | none => none
  | some .null => none
  | some (.arr es) => es.head?
  | some (.obj kvs) => lookupLast kvs zeroKey
  | some (.str (c :: _)) => some (.str [c])
  | some (.str []) => none
  | some _ => none

/-- `x?.k` on a possibly-`undefined` value. -/
def jsOptMember : Option Json → List Char → Option Json
  | none, _ => none
  | some .null, _ => none
  | some (.obj kvs), k => lookupLast kvs k
  | some _, _ => none

/-- JavaScript truthiness of a possibly-`undefined` JSON value. -/
def jsTruthy : Option Json → Bool
  | none => false
  | some .null => false
  | some (.bool b) => b
  | some (.num n) => n != 0
  | some (.str []) => false
  | some (.str (_ :: _)) => true
  | some (.arr _) => true
  | some (.obj _) => true

/-- `parsed.ingress?.[0]?.hostname` followed by the falsy test: `.error`
is a thrown `TypeError` (caught by the handler), `.ok none` resolves
`undefined`, `.ok (some url)` resolves the discovered tunnel URL. -/
def ingressHostname (parsed : Json) : Except Unit (Option (List Char)) :=
  match jsMember parsed ingressKey with
  | .error _ => .error ()
  | .ok ingress =>
    let hostname := jsOptMember (jsOptIndexZero ingress) hostnameKey
    if jsTruthy hostname then .ok (hostname.map (fun v => httpsScheme ++ jsToString v))
    else .ok none

/-- The whole per-line pipeline of the stderr handler: regex capture,
double `JSON.parse` (the second on the string coercion of the first
result, as `JSON.parse` coerces its argument), ingress extraction.
`none` means the line resolves nothing (no match, or a caught parse/type
error); `some r` is the resolution: `r = none` resolves `undefined`,
`r = some url` resolves the URL. -/
def extractFromLine (line : List Char) : Option (Option (List Char)) :=
  match configCapture line with
  | none => none
  | some json =>
    match jsonParse json with
    | none => none
    | some first =>
      match jsonParse (jsToString first) with
      | none => none
      | some parsed =>
        match ingressHostname parsed with
        | .error _ => none
        | .ok r => some r

/-- JSON string-content escaping (`JSON.stringify` on the quotes and
backslashes appearing here), used to build doubly encoded config lines. -/
def escEncode (s : List Char) : List Char :=
  s.foldr (fun c acc => if c = dq ∨ c = bs then bs :: c :: acc else c :: acc) []

/-- The fixed decoded text preceding the hostname value: an encoding of
the object opener, the quoted `ingress` key, the array and object openers
and the quoted `hostname` key. -/
def innerPre : List Char :=
  [obr, dq] ++ "ingress".toList ++ [dq, ':', '[', obr, dq] ++ "hostname".toList ++
    [dq, ':', dq]

/-- The decoded config text up to and including the hostname closing
quote. -/
def innerHead (h : List Char) : List Char := innerPre ++ h ++ [dq]

/-- The decoded (inner) config JSON text carrying hostname `h` as the
only ingress entry. -/
def innerJson (h : List Char) : List Char := innerHead h ++ [cbr, ']', cbr]

/-- The decoded (inner) config JSON text with an empty ingress array. -/
def emptyIngressJson : List Char :=
  [obr, dq] ++ "ingress".toList ++ [dq, ':', '[', ']', cbr]

/-- The text of the capture group produced for decoded config `inner`:
the doubly encoded JSON string, quotes included. -/
def capturedJson (inner : List Char) : List Char := dq :: (escEncode inner ++ [dq])

/-- A cloudflared stderr line whose config carries decoded JSON `inner`. -/
def mkLogLine (inner : List Char) : List Char :=
  "INF ".toList ++ configMarker ++ escEncode inner ++ [dq] ++ " version=6".toList

/-- A cloudflared stderr line whose config names hostname `h`. -/
def mkConfigLine (h : List Char) : List Char := mkLogLine (innerJson h)

/-- A cloudflared stderr line whose config has an empty ingress array. -/
def emptyIngressLine : List Char := mkLogLine emptyIngressJson

/-- The parsed hostname-bearing ingress entry. -/
def hostObj (h : List Char) : Json := .obj [(hostnameKey, .str h)]

/-- The fully parsed config object carrying hostname `h` as the only
ingress entry. -/
def ingressObj (h : List Char) : Json := .obj [(ingressKey, .arr [hostObj h])]

/-- The fully parsed config object with an empty ingress array. -/
def emptyIngressObj : Json := .obj [(ingressKey, .arr [])]

/-!  Concrete example states used by witnesses and counterexamples. -/

/-- A plain default-ish settings state: UPNP mode, logged in, connect
toggle on, no hostname, no Duck DNS, no cloudflare tunnel. -/
def baseState : CloudState where
  forwardingMode := .upnp
  hostname := ""
  duckDnsToken := ""
  duckDnsHostname := ""
  duckDnsCertValid := false
  upnpPort := none
  securePort := 8443
  lastPersistedUpnpPort := none
  lastPersistedIp := none
  lastPersistedRegistrationId := none
  token_info := some "token"
  connectHomeScryptedApp := true
  cloudflaredTunnelToken := ""
  cloudflareTunnelHost := none
  serverId := "server-id"
  serverName := "server-name"
  registrationSecret := "secret"

/-- Custom Domain mode with a hostname configured. -/
def sCustomGood : CloudState :=
  { baseState with forwardingMode := .customDomain, hostname := "cam.example.com" }

/-- Custom Domain mode with no hostname configured. -/
def sCustomBad : CloudState :=
  { baseState with forwardingMode := .customDomain }

/-- UPNP mode with a persisted port. -/
def sUpnp45 : CloudState := { baseState with upnpPort := some 45000 }

/-- Disabled mode with a persisted port. -/
def sDisabled45 : CloudState :=
  { baseState with forwardingMode := .disabled, upnpPort := some 45000 }

/-- Disabled mode with the connect toggle off. -/
def sConnectOff : CloudState :=
  { baseState with forwardingMode := .disabled, connectHomeScryptedApp := false }

/-- An environment whose relay registration succeeds and reports the same
IP the `/_punch/ip` call resolved. -/
def envOk : UpdateEnv where
  registrationId := "registration-1"
  externalIp := "1.2.3.4"
  relayReply := .ok "1.2.3.4"
  duckDnsOk := true

/-- A full pool of ten unclaimed reverse connections. -/
def pool10 : PoolState where
  conns := (List.range 10).map (fun i => ⟨i, false⟩)
  nextId := 10
  created := 0

/-- A full pool whose first connection has been claimed. -/
def pool10c : PoolState where
  conns := ⟨0, true⟩ :: (List.range 9).map (fun i => ⟨i + 1, false⟩)
  nextId := 10
  created := 0

/-- A `Math.random()` draw very close to 1 (an exactly representable
double). -/
def badDraw : ℚ := 1048575 / 1048576

/-!  Theorems.  One theorem per claim (plus witnesses and counterexamples),
with shared helper lemmas. -/

/-- C1: an authority returned by `getAuthority` whose `port` is 443 always
carries a set, non-empty hostname; and whenever the computed port would be
443 while the computed hostname is empty (no hostname configured, in any
mode that computes one), `getAuthority` fails with a user-visible
configuration error instead of returning an authority. -/
theorem c1_authority_port443 (s : CloudState) :
    (∀ a, getAuthority s = .ok a → a.port = some 443 →
      ∃ hn, a.hostname = some hn ∧ hn ≠ "") ∧
    (s.forwardingMode ≠ .disabled → authorityUpnpPort s = some 443 →
      authorityHostname s = "" → ∃ e, getAuthority s = .error e) := by
  constructor
  · intro a ha hp
    unfold getAuthority at ha
    by_cases h1 : s.forwardingMode = .disabled
    · rw [if_pos h1] at ha
      simp only [Except.ok.injEq] at ha
      rw [← ha] at hp
      exact absurd hp (by decide)
    · rw [if_neg h1] at ha
      by_cases h2 : authorityUpnpPort s = some 443 ∧ authorityHostname s = ""
      · rw [if_pos h2] at ha
        simp at ha
      · rw [if_neg h2] at ha
        by_cases h3 : authorityHostname s = ""
        · rw [if_pos h3] at ha
          simp only [Except.ok.injEq] at ha
          rw [← ha] at hp
          exact absurd ⟨hp, h3⟩ h2
        · rw [if_neg h3] at ha
          simp only [Except.ok.injEq] at ha
          exact ⟨authorityHostname s, by rw [← ha], h3⟩
  · intro hd hp hh
    unfold getAuthority
    rw [if_neg hd, if_pos ⟨hp, hh⟩]
    exact ⟨_, rfl⟩

/-- Witness for C1: a Custom Domain state with a hostname, and one
without. -/
theorem c1_witness :
    (∃ hn, (Authority.mk (some 443) (some 443) (some "cam.example.com")).hostname
        = some hn ∧ hn ≠ "") ∧
    (∃ e, getAuthority sCustomBad = .error e) :=
  ⟨(c1_authority_port443 sCustomGood).1 ⟨some 443, some 443, some "cam.example.com"⟩
      rfl rfl,
   (c1_authority_port443 sCustomBad).2 (by decide) rfl rfl⟩

/-- C8 (amended): the UPnP mapping is requested with ttl 1800 seconds and
private target `{host: localAddress, port: securePort}` and re-requested
every 30 minutes — but the renewal interval exactly equals the lease TTL
(1 800 000 ms each) rather than lying strictly below it. -/
theorem c8_upnp_mapping (s : CloudState) (r : ℚ) (addr : String) (p : Nat)
    (hm : s.forwardingMode = .upnp) (hp : s.upnpPort = some p) (hp0 : p ≠ 0)
    (hp443 : p ≠ 443) :
    refreshPortForward s r (some addr) = .upnpMapping ⟨p, addr, s.securePort, 1800⟩ p ∧
    upnpMappingTtlSeconds = 1800 ∧ upnpRenewIntervalMs = 30 * 60 * 1000 ∧
    upnpRenewIntervalMs = upnpMappingTtlSeconds * 1000 := by
  refine ⟨?_, rfl, rfl, rfl⟩
  simp [refreshPortForward, hp, hm, hp0, hp443, upnpMappingTtlSeconds]

/-- Witness for C8 at a concrete UPNP state. -/
theorem c8_witness :
    refreshPortForward sUpnp45 0 (some "192.168.1.100") =
      .upnpMapping ⟨45000, "192.168.1.100", 8443, 1800⟩ 45000 ∧
    upnpMappingTtlSeconds = 1800 ∧ upnpRenewIntervalMs = 30 * 60 * 1000 ∧
    upnpRenewIntervalMs = upnpMappingTtlSeconds * 1000 :=
  c8_upnp_mapping sUpnp45 0 "192.168.1.100" 45000 rfl rfl (by decide) (by decide)

/-- C8 counterexample: the renewal interval (30 minutes) equals the lease
TTL (1800 s) exactly; it is not strictly below it. -/
theorem c8_counterexample :
    upnpRenewIntervalMs = upnpMappingTtlSeconds * 1000 ∧
    ¬ upnpRenewIntervalMs < upnpMappingTtlSeconds * 1000 := by decide

/-- A successful `whitelist` call with no SSL hostname leaves the cache
holding exactly the URL it returned for the requested path. -/
theorem whitelist_caches (s : CloudState) (cache : List (String × String))
    (p : String) (ttl : Nat) (base : String) (scope : ScopeTokens)
    (r : WhitelistResult) (hssl : getSSLHostname s = none)
    (h1 : whitelist s cache p ttl base scope = .ok r) :
    cacheGet r.cache p = some r.url ∧ r.cache.length ≠ 0 := by
  unfold whitelist at h1
  rw [hssl] at h1
  simp only [Option.isSome_none, Bool.false_eq_true, if_false] at h1
  cases hc : cacheGet cache p with
  | some url =>
    rw [hc] at h1
    simp only [Except.ok.injEq] at h1
    subst h1
    refine ⟨hc, ?_⟩
    intro hlen
    rw [List.length_eq_zero] at hlen
    subst hlen
    simp [cacheGet] at hc
  | none =>
    rw [hc] at h1
    cases ht : s.token_info with
    | none => rw [ht] at h1; simp at h1
    | some tok =>
      rw [ht] at h1
      simp only [Except.ok.injEq] at h1
      subst h1
      simp [cacheGet]

/-- C9: with no SSL hostname configured, once `whitelist` has succeeded
for a path, every later call for the same path — whatever ttl, base URL
or scope reply it brings — returns the byte-identical cached URL, makes
no scope call, and leaves the cache unchanged (entries never expire). -/
theorem c9_whitelist_cache (s : CloudState) (cache : List (String × String))
    (p : String) (ttl ttl2 : Nat) (base base2 : String) (scope scope2 : ScopeTokens)
    (r : WhitelistResult) (hssl : getSSLHostname s = none)
    (h1 : whitelist s cache p ttl base scope = .ok r) :
    whitelist s r.cache p ttl2 base2 scope2 =
      .ok { url := r.url, cache := r.cache, scopeCalled := false } := by
  have hcache := (whitelist_caches s cache p ttl base scope r hssl h1).1
  unfold whitelist
  rw [hssl]
  simp only [Option.isSome_none, Bool.false_eq_true, if_false]
  rw [hcache]

/-- Witness for C9: a first call that signs and caches, replayed with a
different ttl, base URL and scope reply. -/
theorem c9_witness :
    whitelist baseState
        [("/push/abc", "https://home.scrypted.app/push/abc?user_token=ut&user_token_signature=sig")]
        "/push/abc" 600 "https://other.example" ⟨"u2", "s2"⟩ =
      .ok { url := "https://home.scrypted.app/push/abc?user_token=ut&user_token_signature=sig",
            cache := [("/push/abc",
              "https://home.scrypted.app/push/abc?user_token=ut&user_token_signature=sig")],
            scopeCalled := false } :=
  c9_whitelist_cache baseState [] "/push/abc" 300 600 "https://home.scrypted.app"
    "https://other.example" ⟨"ut", "sig"⟩ ⟨"u2", "s2"⟩
    ⟨"https://home.scrypted.app/push/abc?user_token=ut&user_token_signature=sig",
     [("/push/abc", "https://home.scrypted.app/push/abc?user_token=ut&user_token_signature=sig")],
     true⟩ rfl rfl

/-- C10: relay callback messages are rate-limited: a handled callback
records its timestamp; a further callback arriving strictly inside the
5000 ms window after the last handled one is dropped — no TLS dial-back,
no timestamp change; one arriving at or past the window is handled; and
the first callback after startup (`backoff = 0`), at any realistic clock
value of at least 5000 ms since the epoch, is never suppressed. -/
theorem c10_callback_throttle (last now t0 : Nat) (h0 : callbackThrottleMs ≤ t0) :
    handleCallbackMessage 0 t0 = { backoff := t0, tlsConnect := true } ∧
    (now < last + callbackThrottleMs →
      handleCallbackMessage last now = { backoff := last, tlsConnect := false }) ∧
    (last + callbackThrottleMs ≤ now →
      handleCallbackMessage last now = { backoff := now, tlsConnect := true }) := by
  refine ⟨?_, fun h => ?_, fun h => ?_⟩
  · unfold handleCallbackMessage
    rw [if_neg (by omega)]
  · unfold handleCallbackMessage
    rw [if_pos (by omega)]
  · unfold handleCallbackMessage
    rw [if_neg (by omega)]

/-- Witness for C10 at concrete timestamps. -/
theorem c10_witness :
    handleCallbackMessage 0 6000 = { backoff := 6000, tlsConnect := true } ∧
    (102000 < 100000 + callbackThrottleMs →
      handleCallbackMessage 100000 102000 = { backoff := 100000, tlsConnect := false }) ∧
    (100000 + callbackThrottleMs ≤ 102000 →
      handleCallbackMessage 100000 102000 = { backoff := 102000, tlsConnect := true }) :=
  c10_callback_throttle 100000 102000 6000 (by decide)

/-- Removing one connection (by identity) from a pool with distinct
identities shrinks it by exactly one. -/
theorem filter_ne_length (l : List Conn) (c : Conn) (hmem : c ∈ l)
    (hnodup : (l.map Conn.id).Nodup) :
    (l.filter (fun x => x.id != c.id)).length + 1 = l.length := by
  induction l with
  | nil => cases hmem
  | cons x xs ih =>
    simp only [List.map_cons, List.nodup_cons] at hnodup
    by_cases hx : x.id = c.id
    · have hxs : xs.filter (fun y => y.id != c.id) = xs := by
        apply List.filter_eq_self.mpr
        intro a ha
        simp only [bne_iff_ne, ne_eq]
        intro hcontra
        exact hnodup.1 (List.mem_map.mpr ⟨a, ha, hcontra.trans hx.symm⟩)
      rw [List.filter_cons]
      simp only [hx, bne_self_eq_false, Bool.false_eq_true, if_false, hxs]
      simp
    · have hc : c ∈ xs := by
        rcases List.mem_cons.mp hmem with h | h
        · exact absurd (congrArg Conn.id h.symm) hx
        · exact h
      rw [List.filter_cons]
      have hbne : (x.id != c.id) = true := by simp [hx]
      rw [hbne]
      simp only [if_true, List.length_cons]
      have := ih hc hnodup.2
      omega

/-- `ensureReverseConnections` does nothing at or above the watermark. -/
theorem ensureReverseConnections_stop (s : PoolState)
    (h : ¬ s.conns.length < reverseConnectionWatermark) :
    ensureReverseConnections s = s := by
  unfold ensureReverseConnections
  rw [dif_neg h]

/-- `ensureReverseConnections` creates one connection per iteration below
the watermark. -/
theorem ensureReverseConnections_step (s : PoolState)
    (h : s.conns.length < reverseConnectionWatermark) :
    ensureReverseConnections s = ensureReverseConnections (createReverseConnection s) := by
  conv_lhs => unfold ensureReverseConnections
  rw [dif_pos h]

/-- C2 (amended): a pooled connection is removed exactly when its socket
closes; an unclaimed connection that closes is removed with NO refill —
the pool drops below the watermark and no replacement is scheduled; a
claimed connection that closes triggers removal and a refill back up to
the watermark, scheduling exactly one creation per claimed close of a
full pool. -/
theorem c2_pool_close (s : PoolState) (c : Conn) (hmem : c ∈ s.conns)
    (hnodup : (s.conns.map Conn.id).Nodup)
    (hlen : s.conns.length = reverseConnectionWatermark)
    (hfresh : ∀ x ∈ s.conns, x.id < s.nextId) :
    (∀ x ∈ (closeConn s c).conns, x.id ≠ c.id) ∧
    (c.claimed = false → (closeConn s c).conns.length = reverseConnectionWatermark - 1 ∧
      (closeConn s c).created = s.created) ∧
    (c.claimed = true → (closeConn s c).conns.length = reverseConnectionWatermark ∧
      (closeConn s c).created = s.created + 1) := by
  have hflen := filter_ne_length s.conns c hmem hnodup
  have hU : c.claimed = false →
      closeConn s c = { s with conns := s.conns.filter (fun x => x.id != c.id) } := by
    intro hcl
    unfold closeConn
    rw [if_neg (by simp [hcl])]
  have hC : c.claimed = true →
      closeConn s c =
        createReverseConnection { s with conns := s.conns.filter (fun x => x.id != c.id) } := by
    intro hcl
    unfold closeConn
    rw [if_pos hcl]
    have h9 : ({ s with conns := s.conns.filter (fun x => x.id != c.id) } : PoolState).conns.length
        < reverseConnectionWatermark := by
      show (s.conns.filter (fun x => x.id != c.id)).length < reverseConnectionWatermark
      omega
    have h10 : ¬ (createReverseConnection
          { s with conns := s.conns.filter (fun x => x.id != c.id) }).conns.length
        < reverseConnectionWatermark := by
      show ¬ ((s.conns.filter (fun x => x.id != c.id)) ++
        [(⟨s.nextId, false⟩ : Conn)]).length < reverseConnectionWatermark
      rw [List.length_append]
      simp only [List.length_cons, List.length_nil]
      omega
    rw [ensureReverseConnections_step _ h9, ensureReverseConnections_stop _ h10]
  refine ⟨?_, fun hcl => ?_, fun hcl => ?_⟩
  · intro x hx
    cases hcl : c.claimed
    · rw [hU hcl] at hx
      have hx2 : x ∈ s.conns.filter (fun y => y.id != c.id) := hx
      have := List.of_mem_filter hx2
      simpa using this
    · rw [hC hcl] at hx
      have hx2 : x ∈ (s.conns.filter (fun y => y.id != c.id)) ++ [⟨s.nextId, false⟩] := hx
      rcases List.mem_append.mp hx2 with hx3 | hx3
      · have := List.of_mem_filter hx3
        simpa using this
      · have hxeq : x = ⟨s.nextId, false⟩ := by simpa using hx3
        subst hxeq
        have := hfresh c hmem
        show s.nextId ≠ c.id
        omega
  · rw [hU hcl]
    constructor
    · show (s.conns.filter (fun x => x.id != c.id)).length = reverseConnectionWatermark - 1
      omega
    · rfl
  · rw [hC hcl]
    constructor
    · show ((s.conns.filter (fun x => x.id != c.id)) ++ [(⟨s.nextId, false⟩ : Conn)]).length
        = reverseConnectionWatermark
      rw [List.length_append]
      simp only [List.length_cons, List.length_nil]
      omega
    · rfl

/-- Witness for C2 (amended) at a full pool whose head is claimed. -/
theorem c2_witness :
    (∀ x ∈ (closeConn pool10c ⟨0, true⟩).conns, x.id ≠ (⟨0, true⟩ : Conn).id) ∧
    ((⟨0, true⟩ : Conn).claimed = false →
      (closeConn pool10c ⟨0, true⟩).conns.length = reverseConnectionWatermark - 1 ∧
      (closeConn pool10c ⟨0, true⟩).created = pool10c.created) ∧
    ((⟨0, true⟩ : Conn).claimed = true →
      (closeConn pool10c ⟨0, true⟩).conns.length = reverseConnectionWatermark ∧
      (closeConn pool10c ⟨0, true⟩).created = pool10c.created + 1) :=
  c2_pool_close pool10c ⟨0, true⟩ (by decide) (by decide) (by decide) (by decide)

/-- C2 counterexample: in a full pool of ten unclaimed connections, a
closing connection is removed but NOT replaced — the pool drops to nine
with zero creations scheduled, contradicting the claimed unconditional
refill, the exactly-N-replacements count and the watermark invariant. -/
theorem c2_counterexample :
    pool10.conns.length = reverseConnectionWatermark ∧
    (⟨0, false⟩ : Conn) ∈ pool10.conns ∧
    (closeConn pool10 ⟨0, false⟩).conns.length = reverseConnectionWatermark - 1 ∧
    (closeConn pool10 ⟨0, false⟩).created = pool10.created := by decide

/-- C6 counterexample: in Disabled mode with a configured internal port,
`getAuthority` returns an authority with NO port at all — not the
configured port. -/
theorem c6_counterexample :
    getAuthority sDisabled45 = .ok { upnp_port := none, port := none, hostname := none } ∧
    sDisabled45.upnpPort = some 45000 ∧ sDisabled45.securePort = 8443 :=
  ⟨rfl, rfl, rfl⟩

/-- C6 (amended): in Disabled mode the authority is the empty object `{}`
— no hostname and also no port — and relay registration still occurs:
`refreshPortForward` goes straight to `updatePortForward`, which still
invokes `sendRegistrationId` (here whenever the IP baseline is unset). -/
theorem c6_disabled (s : CloudState) (r : ℚ) (la : Option String)
    (hd : s.forwardingMode = .disabled) :
    getAuthority s = .ok {} ∧
    (∃ p, refreshPortForward s r la = .update (some p)) ∧
    (∀ (p : Nat) (env : UpdateEnv), s.duckDnsToken = "" → s.cloudflareTunnelHost = none →
      s.lastPersistedIp = none → (updatePortForward s (some p) env).sendCalled = true) := by
  refine ⟨?_, ?_, ?_⟩
  · unfold getAuthority
    rw [if_pos hd]
  · simp only [refreshPortForward, hd, if_true]
    exact ⟨_, rfl⟩
  · intro p env h1 h2 h3
    simp only [updatePortForward, resolveIp, hd, h1, h2, h3]
    simp only [ne_eq, not_true, and_false, if_false, reduceCtorEq, Option.isSome_none,
      Bool.false_eq_true, or_self, reduceIte, not_false_eq_true, or_true, if_true]
    split <;> try rfl
    split <;> rfl

/-- Witness for C6 at a concrete Disabled state. -/
theorem c6_witness :
    getAuthority sDisabled45 = .ok {} ∧
    (∃ p, refreshPortForward sDisabled45 0 none = .update (some p)) ∧
    (updatePortForward sDisabled45 (some 45000) envOk).sendCalled = true :=
  ⟨(c6_disabled sDisabled45 0 none rfl).1,
   (c6_disabled sDisabled45 0 none rfl).2.1,
   (c6_disabled sDisabled45 0 none rfl).2.2 45000 envOk rfl rfl rfl⟩

/-- C7 counterexample: `sendRegistrationId` CAN throw — it computes the
authority first, so a Custom Domain state with no hostname propagates the
configuration error out of it; and the connect-disabled soft failure
posts no user alert. -/
theorem c7_counterexample :
    (sendRegistrationId sCustomBad "registration" false (.ok "1.2.3.4")).result =
      .error customDomainHostnameError ∧
    (sendRegistrationId sConnectOff "registration" false (.ok "1.2.3.4")).result =
      .ok { error := some connectDisabledError, ip_address := none } ∧
    (sendRegistrationId sConnectOff "registration" false (.ok "1.2.3.4")).alerts = [] :=
  ⟨rfl, rfl, rfl⟩

/-- C7 (amended): once `getAuthority` succeeds, `sendRegistrationId`
never throws: the connect-disabled toggle yields a structured `{error}`
WITHOUT a user alert, a missing bearer token yields `{error}` plus an
alert, relay and network failures yield `{error}`, and a successful relay
response persists the registration id and the authority's `upnp_port` as
the new change-detection baseline. -/
theorem c7_send (s : CloudState) (regId : String) (force : Bool) (reply : RelayReply)
    (a : Authority) (ha : getAuthority s = .ok a) :
    (∃ b, (sendRegistrationId s regId force reply).result = .ok b) ∧
    (s.connectHomeScryptedApp = false →
      (sendRegistrationId s regId force reply).result =
          .ok { error := some connectDisabledError } ∧
      (sendRegistrationId s regId force reply).alerts = []) ∧
    (s.connectHomeScryptedApp = true → s.token_info = none →
      (sendRegistrationId s regId force reply).result = .ok { error := some notLoggedInError } ∧
      (sendRegistrationId s regId force reply).alerts = [notLoggedInError]) ∧
    (∀ ip tok, s.connectHomeScryptedApp = true → s.token_info = some tok → reply = .ok ip →
      (sendRegistrationId s regId force reply).state.lastPersistedRegistrationId = some regId ∧
      (sendRegistrationId s regId force reply).state.lastPersistedUpnpPort = a.upnp_port ∧
      (sendRegistrationId s regId force reply).result = .ok { ip_address := some ip }) := by
  refine ⟨?_, fun hc => ?_, fun hc ht => ?_, fun ip tok hc ht hr => ?_⟩
  · by_cases hc : s.connectHomeScryptedApp = false
    · exact ⟨{ error := some connectDisabledError }, by simp [sendRegistrationId, ha, hc]⟩
    · cases ht : s.token_info with
      | none => exact ⟨{ error := some notLoggedInError },
          by simp [sendRegistrationId, ha, hc, ht]⟩
      | some tok =>
        cases hr : reply with
        | ok ip => exact ⟨{ ip_address := some ip },
            by simp [sendRegistrationId, ha, hc, ht]⟩
        | relayError m => exact ⟨{ error := some m },
            by simp [sendRegistrationId, ha, hc, ht]⟩
        | netFail m => exact ⟨{ error := some m },
            by simp [sendRegistrationId, ha, hc, ht]⟩
  · constructor <;> simp [sendRegistrationId, ha, hc]
  · constructor <;> simp [sendRegistrationId, ha, hc, ht]
  · refine ⟨?_, ?_, ?_⟩ <;> simp [sendRegistrationId, ha, hc, ht, hr]

/-- Witness for C7 at a plain logged-in state. -/
theorem c7_witness :
    (∃ b, (sendRegistrationId baseState "registration" false (.ok "1.2.3.4")).result
      = .ok b) ∧
    (baseState.connectHomeScryptedApp = false →
      (sendRegistrationId baseState "registration" false (.ok "1.2.3.4")).result =
          .ok { error := some connectDisabledError } ∧
      (sendRegistrationId baseState "registration" false (.ok "1.2.3.4")).alerts = []) ∧
    (baseState.connectHomeScryptedApp = true → baseState.token_info = none →
      (sendRegistrationId baseState "registration" false (.ok "1.2.3.4")).result =
        .ok { error := some notLoggedInError } ∧
      (sendRegistrationId baseState "registration" false (.ok "1.2.3.4")).alerts =
        [notLoggedInError]) ∧
    (∀ ip tok, baseState.connectHomeScryptedApp = true →
      baseState.token_info = some tok → (RelayReply.ok "1.2.3.4") = .ok ip →
      (sendRegistrationId baseState "registration" false
        (.ok "1.2.3.4")).state.lastPersistedRegistrationId = some "registration" ∧
      (sendRegistrationId baseState "registration" false
        (.ok "1.2.3.4")).state.lastPersistedUpnpPort =
          (Authority.mk none none none).upnp_port ∧
      (sendRegistrationId baseState "registration" false (.ok "1.2.3.4")).result =
        .ok { ip_address := some ip }) :=
  c7_send baseState "registration" false (.ok "1.2.3.4") ⟨none, none, none⟩ rfl

/-- `sendRegistrationId` never touches the stored `upnpPort`. -/
theorem sendRegistrationId_upnpPort (s : CloudState) (regId : String) (force : Bool)
    (reply : RelayReply) :
    (sendRegistrationId s regId force reply).state.upnpPort = s.upnpPort := by
  unfold sendRegistrationId
  cases hga : getAuthority s with
  | error e => rfl
  | ok a =>
    by_cases hc : s.connectHomeScryptedApp = false
    · simp [hc]
    · cases ht : s.token_info with
      | none => simp [hc, ht]
      | some tok => cases reply <;> simp [hc, ht]

/-- `updatePortForward` persists the port it is handed (the very first
mutation of the run, kept even when a later step throws). -/
theorem updatePortForward_upnpPort (s : CloudState) (p : Option Nat) (env : UpdateEnv) :
    (updatePortForward s p env).state.upnpPort = p := by
  simp only [updatePortForward]
  split
  · rfl
  · repeat' split
    all_goals simp [sendRegistrationId_upnpPort]

/-- C3 (amended): with UPNP mode and no persisted `upnpPort`,
`refreshPortForward` draws a random port lying in the CLOSED interval
[40000, 60000] (`Math.round` can produce 60000 itself), uses it as the
public port of the requested mapping whose private target port is the
secure port — not the chosen port — hands it to `updatePortForward` on
mapping success, and `updatePortForward` persists it. -/
theorem c3_upnp_random_port (s : CloudState) (r : ℚ) (addr : String)
    (hr0 : 0 ≤ r) (hr1 : r < 1) (hm : s.forwardingMode = .upnp) (hp : s.upnpPort = none) :
    40000 ≤ chosenUpnpPort r ∧ chosenUpnpPort r ≤ 60000 ∧
    refreshPortForward s r (some addr) =
      .upnpMapping ⟨chosenUpnpPort r, addr, s.securePort, upnpMappingTtlSeconds⟩
        (chosenUpnpPort r) ∧
    (∀ (s2 : CloudState) (env : UpdateEnv),
      (updatePortForward s2 (some (chosenUpnpPort r)) env).state.upnpPort =
        some (chosenUpnpPort r)) := by
  have hf1 : (40000 : ℤ) ≤ jsMathRound (r * 20000 + 40000) := by
    unfold jsMathRound
    rw [Int.le_floor]
    push_cast
    nlinarith
  have hf2 : jsMathRound (r * 20000 + 40000) < 60001 := by
    unfold jsMathRound
    rw [Int.floor_lt]
    push_cast
    nlinarith
  have h1 : 40000 ≤ chosenUpnpPort r := by
    unfold chosenUpnpPort
    omega
  have h2 : chosenUpnpPort r ≤ 60000 := by
    unfold chosenUpnpPort
    omega
  have h443 : chosenUpnpPort r ≠ 443 := by omega
  refine ⟨h1, h2, ?_, fun s2 env => updatePortForward_upnpPort s2 _ env⟩
  simp [refreshPortForward, hm, hp, h443]

/-- Witness for C3 (amended) at the draw 0. -/
theorem c3_witness :
    40000 ≤ chosenUpnpPort 0 ∧ chosenUpnpPort 0 ≤ 60000 ∧
    refreshPortForward baseState 0 (some "192.168.1.100") =
      .upnpMapping ⟨chosenUpnpPort 0, "192.168.1.100", baseState.securePort,
        upnpMappingTtlSeconds⟩ (chosenUpnpPort 0) ∧
    (∀ (s2 : CloudState) (env : UpdateEnv),
      (updatePortForward s2 (some (chosenUpnpPort 0)) env).state.upnpPort =
        some (chosenUpnpPort 0)) :=
  c3_upnp_random_port baseState 0 "192.168.1.100" (by norm_num) (by norm_num) rfl rfl

/-- C3 counterexample: the draw 1048575/1048576 (an exactly representable
double in [0,1)) makes `Math.round` produce port 60000 — outside the
claimed half-open interval — and the issued mapping's private target port
is the secure port 8443, not the chosen public port. -/
theorem c3_counterexample :
    (0 ≤ badDraw ∧ badDraw < 1) ∧
    chosenUpnpPort badDraw = 60000 ∧
    refreshPortForward baseState badDraw (some "192.168.1.100") =
      .upnpMapping ⟨60000, "192.168.1.100", 8443, 1800⟩ 60000 := by
  have h60 : jsMathRound (badDraw * 20000 + 40000) = 60000 := by
    unfold jsMathRound badDraw
    rw [Int.floor_eq_iff]
    constructor <;> norm_num
  have hc : chosenUpnpPort badDraw = 60000 := by
    unfold chosenUpnpPort
    rw [h60]
    rfl
  refine ⟨⟨by norm_num [badDraw], by norm_num [badDraw]⟩, hc, ?_⟩
  simp [refreshPortForward, baseState, hc, upnpMappingTtlSeconds]

/-- One `updatePortForward` run in a plain (no custom domain, no Duck DNS,
no cloudflare tunnel, logged-in, connect-enabled, relay-success)
configuration: registration happens exactly when the compared pair
differs from the baseline, and success persists the compared pair. -/
theorem updatePortForward_run (s : CloudState) (p : Nat) (env : UpdateEnv) (ip tok : String)
    (hnc : s.forwardingMode ≠ .customDomain) (hnd : s.forwardingMode ≠ .disabled)
    (hcf : s.cloudflareTunnelHost = none) (hduck : s.duckDnsToken = "")
    (hconn : s.connectHomeScryptedApp = true) (htok : s.token_info = some tok)
    (hreply : env.relayReply = .ok ip) (h443 : p ≠ 443) :
    updatePortForward s (some p) env =
      if s.lastPersistedUpnpPort ≠ some p ∨ s.lastPersistedIp ≠ some env.externalIp then
        { state := { s with
            upnpPort := some p
            lastPersistedRegistrationId := some env.registrationId
            lastPersistedUpnpPort := some p
            lastPersistedIp := some env.externalIp },
          sendCalled := true,
          alerts := if env.externalIp ≠ "localhost" ∧ env.externalIp ≠ ip then
              [cloudNotVerifiedWarning s.hostname] else [],
          thrown := none }
      else
        { state := { s with upnpPort := some p }, sendCalled := false, alerts := [],
          thrown := none } := by
  have hres : resolveIp { s with upnpPort := some p } env = .ok env.externalIp := by
    unfold resolveIp
    simp [hnc, hduck, hcf]
  have hga : getAuthority { s with upnpPort := some p } =
      .ok { upnp_port := some p, port := some p, hostname := none } := by
    unfold getAuthority authorityUpnpPort authorityHostname jsAndStr
    simp [hnc, hnd, hduck, h443]
  have hsend : sendRegistrationId { s with upnpPort := some p } env.registrationId false
      env.relayReply =
      { state := { s with
          upnpPort := some p
          lastPersistedRegistrationId := some env.registrationId
          lastPersistedUpnpPort := some p },
        result := .ok { ip_address := some ip }, alerts := [] } := by
    rw [hreply]
    unfold sendRegistrationId
    rw [hga]
    simp [hconn, htok]
  simp only [updatePortForward, hres, hsend]
  simp [hnc, hcf]

/-- A run whose baseline already matches the compared pair does not
register. -/
theorem updatePortForward_idem (t : CloudState) (p : Nat) (env : UpdateEnv) (ip tok : String)
    (hnc : t.forwardingMode ≠ .customDomain) (hnd : t.forwardingMode ≠ .disabled)
    (hcf : t.cloudflareTunnelHost = none) (hduck : t.duckDnsToken = "")
    (hconn : t.connectHomeScryptedApp = true) (htok : t.token_info = some tok)
    (hreply : env.relayReply = .ok ip) (h443 : p ≠ 443)
    (hb1 : t.lastPersistedUpnpPort = some p) (hb2 : t.lastPersistedIp = some env.externalIp) :
    (updatePortForward t (some p) env).sendCalled = false := by
  rw [updatePortForward_run t p env ip tok hnc hnd hcf hduck hconn htok hreply h443]
  rw [if_neg (by simp [hb1, hb2])]

/-- C4 (amended): `updatePortForward` carries no force flag of its own;
registration is re-sent iff the compared `(port, resolvedIp)` pair
differs from the persisted `(lastPersistedUpnpPort, lastPersistedIp)`
baseline.  In a plain UPNP / Router Forward configuration (no cloudflare
tunnel, no Duck DNS, logged in, relay success) a registering run persists
exactly the compared pair, so of two consecutive identical runs at most
the first registers and the second never does.  (In Disabled mode, or
with a cloudflare tunnel active, the persisted `authority.upnp_port`
differs from the compared port and suppression fails — see the
counterexample.) -/
theorem c4_change_suppression (s : CloudState) (p : Nat) (env : UpdateEnv) (ip tok : String)
    (hm : s.forwardingMode = .upnp ∨ s.forwardingMode = .routerForward)
    (hcf : s.cloudflareTunnelHost = none) (hduck : s.duckDnsToken = "")
    (hconn : s.connectHomeScryptedApp = true) (htok : s.token_info = some tok)
    (hreply : env.relayReply = .ok ip) (h443 : p ≠ 443) :
    ((updatePortForward s (some p) env).sendCalled = true ↔
      (s.lastPersistedUpnpPort ≠ some p ∨ s.lastPersistedIp ≠ some env.externalIp)) ∧
    (updatePortForward (updatePortForward s (some p) env).state (some p) env).sendCalled
      = false := by
  have hnc : s.forwardingMode ≠ .customDomain := by rcases hm with h | h <;> simp [h]
  have hnd : s.forwardingMode ≠ .disabled := by rcases hm with h | h <;> simp [h]
  have hrun1 := updatePortForward_run s p env ip tok hnc hnd hcf hduck hconn htok hreply h443
  by_cases hC : s.lastPersistedUpnpPort ≠ some p ∨ s.lastPersistedIp ≠ some env.externalIp
  · rw [if_pos hC] at hrun1
    constructor
    · rw [hrun1]
      exact iff_of_true rfl hC
    · rw [hrun1]
      exact updatePortForward_idem _ p env ip tok hnc hnd hcf hduck hconn htok hreply h443
        rfl rfl
  · rw [if_neg hC] at hrun1
    obtain ⟨hb1, hb2⟩ := not_or.mp hC
    rw [not_not] at hb1 hb2
    constructor
    · rw [hrun1]
      exact iff_of_false (by simp) hC
    · rw [hrun1]
      exact updatePortForward_idem _ p env ip tok hnc hnd hcf hduck hconn htok hreply h443
        hb1 hb2

/-- Witness for C4 (amended) at a concrete UPNP state. -/
theorem c4_witness :
    ((updatePortForward sUpnp45 (some 45000) envOk).sendCalled = true ↔
      (sUpnp45.lastPersistedUpnpPort ≠ some 45000 ∨
        sUpnp45.lastPersistedIp ≠ some envOk.externalIp)) ∧
    (updatePortForward (updatePortForward sUpnp45 (some 45000) envOk).state
        (some 45000) envOk).sendCalled = false :=
  c4_change_suppression sUpnp45 45000 envOk "1.2.3.4" "token" (Or.inl rfl) rfl rfl rfl rfl
    rfl (by decide)

/-- C4 counterexample: two consecutive identical runs in Disabled mode
both re-register — the relay success persists `authority.upnp_port`
(absent in Disabled mode) while the comparison uses the stored port, so
the baseline never matches and the second identical run registers again:
two registration calls, not exactly one. -/
theorem c4_counterexample :
    (updatePortForward sDisabled45 (some 45000) envOk).sendCalled = true ∧
    (updatePortForward (updatePortForward sDisabled45 (some 45000) envOk).state
        (some 45000) envOk).sendCalled = true ∧
    getAuthority ((updatePortForward sDisabled45 (some 45000) envOk).state) =
      getAuthority sDisabled45 ∧
    resolveIp { sDisabled45 with upnpPort := some 45000 } envOk = .ok "1.2.3.4" ∧
    resolveIp { (updatePortForward sDisabled45 (some 45000) envOk).state with
        upnpPort := some 45000 } envOk = .ok "1.2.3.4" :=
  ⟨rfl, rfl, rfl, rfl, rfl⟩

/-- `escEncode` on the empty text. -/
theorem escEncode_nil : escEncode [] = [] := rfl

/-- One step of `escEncode`. -/
theorem escEncode_cons (a : Char) (as : List Char) :
    escEncode (a :: as) =
      if a = dq ∨ a = bs then bs :: a :: escEncode as else a :: escEncode as := rfl

/-- `escEncode` distributes over append. -/
theorem escEncode_append (a b : List Char) :
    escEncode (a ++ b) = escEncode a ++ escEncode b := by
  induction a with
  | nil => rw [escEncode_nil, List.nil_append, List.nil_append]
  | cons x xs ih =>
    rw [List.cons_append, escEncode_cons, escEncode_cons]
    split <;> simp [ih]

/-- Characters of an encoded text come from the text or are backslashes. -/
theorem escEncode_mem (s : List Char) (c : Char) (hc : c ∈ escEncode s) :
    c ∈ s ∨ c = bs := by
  induction s with
  | nil => rw [escEncode_nil] at hc; cases hc
  | cons a as ih =>
    rw [escEncode_cons] at hc
    by_cases hq : a = dq ∨ a = bs
    · rw [if_pos hq] at hc
      rcases List.mem_cons.mp hc with h1 | hc2
      · exact Or.inr h1
      · rcases List.mem_cons.mp hc2 with h2 | h3
        · exact Or.inl (h2 ▸ List.mem_cons_self a as)
        · rcases ih h3 with h4 | h4
          · exact Or.inl (List.mem_cons_of_mem a h4)
          · exact Or.inr h4
    · rw [if_neg hq] at hc
      rcases List.mem_cons.mp hc with h2 | h3
      · exact Or.inl (h2 ▸ List.mem_cons_self a as)
      · rcases ih h3 with h4 | h4
        · exact Or.inl (List.mem_cons_of_mem a h4)
        · exact Or.inr h4

/-- `escEncode` is the identity on text free of quotes and backslashes. -/
theorem escEncode_clean (seg : List Char) (hseg : ∀ c ∈ seg, c ≠ dq ∧ c ≠ bs) :
    escEncode seg = seg := by
  induction seg with
  | nil => rfl
  | cons a as ih =>
    obtain ⟨h1, h2⟩ := hseg a (List.mem_cons_self a as)
    rw [escEncode_cons, if_neg (fun hcon => hcon.elim h1 h2),
      ih (fun c hc => hseg c (List.mem_cons_of_mem a hc))]

/-- A non-`}` character is consumed by the lazy capture scan. -/
theorem captureBody_cons_plain (c : Char) (cs : List Char) (hc : c ≠ cbr) :
    captureBody (c :: cs) = (captureBody cs).map (fun l => c :: l) := by
  conv_lhs => unfold captureBody
  rw [if_neg (fun hcon => hc hcon.1)]

/-- A `}` not followed by a quote is consumed by the lazy capture scan. -/
theorem captureBody_cbr_rb (cs : List Char) :
    captureBody (cbr :: ']' :: cs) = (captureBody (']' :: cs)).map (fun l => cbr :: l) := rfl

/-- The lazy capture scan ends at the first `}` followed by a quote. -/
theorem captureBody_term (cs : List Char) :
    captureBody (cbr :: dq :: cs) = some [cbr, dq] := rfl

/-- The capture scan walks over a `}`-free prefix. -/
theorem captureBody_append (h cs : List Char) (hb : ∀ c ∈ h, c ≠ cbr) :
    captureBody (h ++ cs) = (captureBody cs).map (fun l => h ++ l) := by
  induction h with
  | nil => simp
  | cons a as ih =>
    rw [List.cons_append, captureBody_cons_plain a _ (hb a (List.mem_cons_self a as)),
        ih (fun c hc => hb c (List.mem_cons_of_mem a hc))]
    cases hcb : captureBody cs <;> simp

/-- The marker test fails on any character other than `c`. -/
theorem charsStart_marker_ne (c : Char) (cs : List Char) (hc : c ≠ 'c') :
    charsStart configMarker (c :: cs) = false := by
  have h1 : ('c' == c) = false := by
    rw [beq_eq_false_iff_ne]
    exact fun hcon => hc hcon.symm
  show ('c' == c && charsStart ("onfig=".toList ++ [dq]) cs) = false
  rw [h1, Bool.false_and]

/-- The marker test succeeds where the marker itself starts. -/
theorem charsStart_append_self (pat rest : List Char) :
    charsStart pat (pat ++ rest) = true := by
  induction pat with
  | nil => rfl
  | cons p ps ih =>
    rw [List.cons_append]
    show (p == p && charsStart ps (ps ++ rest)) = true
    rw [beq_self_eq_true, Bool.true_and, ih]

/-- The regex scan skips a position that cannot start the marker. -/
theorem configCapture_skip (c : Char) (cs : List Char) (hc : c ≠ 'c') :
    configCapture (c :: cs) = configCapture cs := by
  conv_lhs => unfold configCapture
  rw [charsStart_marker_ne c cs hc]
  rw [if_neg (by simp)]

/-- The regex scan matches at a marker start when a terminator follows. -/
theorem configCapture_cons_head (c : Char) (cs : List Char)
    (ht : charsStart configMarker (c :: cs) = true) (body : List Char)
    (hb : captureBody (List.drop 7 cs) = some body) :
    configCapture (c :: cs) = some (dq :: body) := by
  conv_lhs => unfold configCapture
  rw [if_pos ht, hb]

/-- The regex capture at the marker itself. -/
theorem configCapture_marker (rest body : List Char) (hb : captureBody rest = some body) :
    configCapture (configMarker ++ rest) = some (dq :: body) :=
  configCapture_cons_head 'c' ("onfig=".toList ++ [dq] ++ rest)
    (charsStart_append_self configMarker rest) body hb

/-- The closing quote ends a string body. -/
theorem psb_dq (cs : List Char) : parseStringBody (dq :: cs) = some ([], cs) := rfl

/-- A plain character is consumed into the string content. -/
theorem psb_plain (c : Char) (cs : List Char) (h1 : c ≠ dq) (h2 : c ≠ bs) :
    parseStringBody (c :: cs) = (parseStringBody cs).map (fun p => (c :: p.1, p.2)) := by
  conv_lhs => unfold parseStringBody
  rw [if_neg h1, if_neg h2]

/-- An escaped quote is consumed into the string content. -/
theorem psb_esc_dq (cs : List Char) :
    parseStringBody (bs :: dq :: cs) = (parseStringBody cs).map (fun p => (dq :: p.1, p.2)) :=
  rfl

/-- An escaped backslash is consumed into the string content. -/
theorem psb_esc_bs (cs : List Char) :
    parseStringBody (bs :: bs :: cs) = (parseStringBody cs).map (fun p => (bs :: p.1, p.2)) :=
  rfl

/-- Parsing an encoded text recovers the text. -/
theorem psb_escEncode (seg cs : List Char) :
    parseStringBody (escEncode seg ++ cs) =
      (parseStringBody cs).map (fun p => (seg ++ p.1, p.2)) := by
  induction seg with
  | nil =>
    rw [escEncode_nil, List.nil_append]
    cases parseStringBody cs <;> simp
  | cons a as ih =>
    rw [escEncode_cons]
    by_cases hq : a = dq ∨ a = bs
    · rw [if_pos hq]
      rcases hq with h | h
      · subst h
        rw [List.cons_append, List.cons_append, psb_esc_dq, ih]
        cases parseStringBody cs <;> simp
      · subst h
        rw [List.cons_append, List.cons_append, psb_esc_bs, ih]
        cases parseStringBody cs <;> simp
    · obtain ⟨h1, h2⟩ := not_or.mp hq
      rw [if_neg hq, List.cons_append, psb_plain a _ h1 h2, ih]
      cases parseStringBody cs <;> simp

/-- Parsing a quote-free, backslash-free segment keeps it verbatim. -/
theorem psb_plain_append (seg cs : List Char) (hseg : ∀ c ∈ seg, c ≠ dq ∧ c ≠ bs) :
    parseStringBody (seg ++ cs) = (parseStringBody cs).map (fun p => (seg ++ p.1, p.2)) := by
  rw [← escEncode_clean seg hseg]
  rw [psb_escEncode]
  rw [escEncode_clean seg hseg]

/-- A clean segment followed by a closing quote parses as that key or
string value. -/
theorem psb_key (seg R : List Char) (hseg : ∀ c ∈ seg, c ≠ dq ∧ c ≠ bs) :
    parseStringBody (seg ++ (dq :: R)) = some (seg, R) := by
  rw [psb_plain_append seg _ hseg, psb_dq]
  simp

/-- The fixed decoded text before the hostname carries no closing brace. -/
theorem innerPre_no_cbr : ∀ c ∈ innerPre, c ≠ cbr := by decide

/-- The key `ingress` is free of quotes and backslashes. -/
theorem ingressKey_clean : ∀ c ∈ ingressKey, c ≠ dq ∧ c ≠ bs := by decide

/-- The key `hostname` is free of quotes and backslashes. -/
theorem hostnameKey_clean : ∀ c ∈ hostnameKey, c ≠ dq ∧ c ≠ bs := by decide

/-- The regex scan walks over a prefix holding no `c` at all. -/
theorem configCapture_before (pre rest : List Char) (hpre : ∀ c ∈ pre, c ≠ 'c') :
    configCapture (pre ++ rest) = configCapture rest := by
  induction pre with
  | nil => rw [List.nil_append]
  | cons a as ih =>
    rw [List.cons_append, configCapture_skip a _ (hpre a (List.mem_cons_self a as)),
      ih (fun c hc => hpre c (List.mem_cons_of_mem a hc))]

/-- The capture scan on the closing braces of the encoded config: the
first `}` is followed by `]`, the second by the closing quote. -/
theorem captureBody_closing (tail : List Char) :
    captureBody (cbr :: ']' :: cbr :: dq :: tail) = some (cbr :: ']' :: cbr :: dq :: []) := by
  rw [captureBody_cbr_rb, captureBody_cons_plain ']' _ (by decide), captureBody_term]
  rfl

/-- The capture group for an encoded config line: everything up to the
doubled closing quote, whatever follows the line. -/
theorem captureBody_payload (h post : List Char)
    (hok : ∀ c ∈ h, c ≠ dq ∧ c ≠ bs ∧ c ≠ cbr) :
    captureBody (escEncode (innerJson h) ++ (dq :: post)) =
      some (escEncode (innerJson h) ++ [dq]) := by
  have hsplit : escEncode (innerJson h) =
      escEncode (innerHead h) ++ (cbr :: ']' :: cbr :: []) := by
    rw [show innerJson h = innerHead h ++ [cbr, ']', cbr] from rfl, escEncode_append]
    rfl
  have hno : ∀ c ∈ escEncode (innerHead h), c ≠ cbr := by
    intro c hc
    rcases escEncode_mem _ c hc with hin | hb2
    · rw [show innerHead h = innerPre ++ (h ++ [dq]) from rfl] at hin
      rcases List.mem_append.mp hin with h1 | h2
      · exact innerPre_no_cbr c h1
      · rcases List.mem_append.mp h2 with h3 | h4
        · exact (hok c h3).2.2
        · rw [List.mem_singleton] at h4
          subst h4
          decide
    · subst hb2
      decide
  rw [hsplit, List.append_assoc]
  rw [captureBody_append _ _ hno]
  rw [show ((cbr :: ']' :: cbr :: []) : List Char) ++ (dq :: post) =
    cbr :: ']' :: cbr :: dq :: post from rfl]
  rw [captureBody_closing post]
  simp [List.append_assoc]

/-- The parser step on a string value. -/
theorem pv_str (fuel : Nat) (rest : List Char) :
    parseValue (fuel + 1) (dq :: rest) =
      (parseStringBody rest).map (fun p => (Json.str p.1, p.2)) := rfl

/-- The parser step into a nonempty object. -/
theorem pv_obj (fuel : Nat) (rest : List Char) :
    parseValue (fuel + 1) (obr :: dq :: rest) =
      (parseFields fuel (dq :: rest)).map (fun p => (Json.obj p.1, p.2)) := rfl

/-- The parser step into a nonempty array opening on an object. -/
theorem pv_arr (fuel : Nat) (rest : List Char) :
    parseValue (fuel + 1) ('[' :: obr :: rest) =
      (parseItems fuel (obr :: rest)).map (fun p => (Json.arr p.1, p.2)) := rfl

/-- The parser step on an empty array. -/
theorem pv_arr_empty (fuel : Nat) (rest : List Char) :
    parseValue (fuel + 1) ('[' :: ']' :: rest) = some (Json.arr [], rest) := rfl

/-- A one-field object body: quoted key, colon, a value whose parse stops
at the closing brace. -/
theorem pf_single (fuel : Nat) (key vin : List Char) (v : Json) (rest : List Char)
    (hkey : ∀ c ∈ key, c ≠ dq ∧ c ≠ bs)
    (hv : parseValue fuel vin = some (v, cbr :: rest)) :
    parseFields (fuel + 1) (dq :: (key ++ (dq :: ':' :: vin))) = some ([(key, v)], rest) := by
  have h1 : parseStringBody (key ++ (dq :: ':' :: vin)) = some (key, ':' :: vin) :=
    psb_key key (':' :: vin) hkey
  conv_lhs => unfold parseFields
  show (parseStringBody (key ++ (dq :: ':' :: vin))).bind (fun kp =>
      (splitHead (skipWs kp.2)).bind (fun p2 =>
        if p2.1 = ':' then
          (parseValue fuel p2.2).bind (fun vp =>
            (splitHead (skipWs vp.2)).bind (fun p3 =>
              if p3.1 = ',' then
                (parseFields fuel p3.2).map (fun p => ((kp.1, vp.1) :: p.1, p.2))
              else if p3.1 = cbr then some ([(kp.1, vp.1)], p3.2)
              else none))
        else none)) = some ([(key, v)], rest)
  rw [h1, Option.some_bind]
  show (parseValue fuel vin).bind (fun vp =>
      (splitHead (skipWs vp.2)).bind (fun p3 =>
        if p3.1 = ',' then
          (parseFields fuel p3.2).map (fun p => ((key, vp.1) :: p.1, p.2))
        else if p3.1 = cbr then some ([(key, vp.1)], p3.2)
        else none)) = some ([(key, v)], rest)
  rw [hv, Option.some_bind]
  rfl

/-- A one-item array body: a value whose parse stops at the closing
bracket. -/
theorem pi_single (fuel : Nat) (input : List Char) (v : Json) (rest : List Char)
    (hv : parseValue fuel input = some (v, ']' :: rest)) :
    parseItems (fuel + 1) input = some ([v], rest) := by
  conv_lhs => unfold parseItems
  rw [hv, Option.some_bind]
  rfl

/-- The first `JSON.parse`: the doubly encoded capture decodes to the
string holding the inner config text. -/
theorem jsonParse_capturedJson (inner : List Char) :
    jsonParse (capturedJson inner) = some (Json.str inner) := by
  have hpv : parseValue (2 * (capturedJson inner).length + 2) (capturedJson inner) =
      some (Json.str inner, []) := by
    show parseValue ((2 * (capturedJson inner).length + 1) + 1)
      (dq :: (escEncode inner ++ [dq])) = some (Json.str inner, [])
    rw [pv_str, psb_escEncode, psb_dq]
    simp
  unfold jsonParse
  rw [hpv]
  rfl

/-- The second `JSON.parse`: the inner config text parses to the object
whose single ingress entry names hostname `h`. -/
theorem jsonParse_innerJson (h : List Char)
    (hok : ∀ c ∈ h, c ≠ dq ∧ c ≠ bs ∧ c ≠ cbr) :
    jsonParse (innerJson h) = some (ingressObj h) := by
  have hok2 : ∀ c ∈ h, c ≠ dq ∧ c ≠ bs := fun c hc => ⟨(hok c hc).1, (hok c hc).2.1⟩
  have A1 : parseValue (2 * h.length + 54) (dq :: (h ++ (dq :: cbr :: ']' :: cbr :: []))) =
      some (Json.str h, cbr :: ']' :: cbr :: []) := by
    show parseValue ((2 * h.length + 53) + 1) (dq :: (h ++ (dq :: cbr :: ']' :: cbr :: []))) =
      some (Json.str h, cbr :: ']' :: cbr :: [])
    rw [pv_str, psb_key h _ hok2]
    rfl
  have A2 : parseFields (2 * h.length + 55)
      (dq :: (hostnameKey ++ (dq :: ':' :: dq :: (h ++ (dq :: cbr :: ']' :: cbr :: []))))) =
      some ([(hostnameKey, Json.str h)], ']' :: cbr :: []) :=
    pf_single (2 * h.length + 54) hostnameKey (dq :: (h ++ (dq :: cbr :: ']' :: cbr :: [])))
      (Json.str h) (']' :: cbr :: []) hostnameKey_clean A1
  have A3 : parseValue (2 * h.length + 56)
      (obr :: dq :: (hostnameKey ++ (dq :: ':' :: dq :: (h ++ (dq :: cbr :: ']' :: cbr :: []))))) =
      some (hostObj h, ']' :: cbr :: []) := by
    show parseValue ((2 * h.length + 55) + 1)
      (obr :: dq :: (hostnameKey ++ (dq :: ':' :: dq :: (h ++ (dq :: cbr :: ']' :: cbr :: []))))) =
      some (hostObj h, ']' :: cbr :: [])
    rw [pv_obj, A2]
    rfl
  have A4 : parseItems (2 * h.length + 57)
      (obr :: dq :: (hostnameKey ++ (dq :: ':' :: dq :: (h ++ (dq :: cbr :: ']' :: cbr :: []))))) =
      some ([hostObj h], cbr :: []) :=
    pi_single (2 * h.length + 56) _ (hostObj h) (cbr :: []) A3
  have A5 : parseValue (2 * h.length + 58)
      ('[' :: obr :: dq ::
        (hostnameKey ++ (dq :: ':' :: dq :: (h ++ (dq :: cbr :: ']' :: cbr :: []))))) =
      some (Json.arr [hostObj h], cbr :: []) := by
    show parseValue ((2 * h.length + 57) + 1)
      ('[' :: obr :: dq ::
        (hostnameKey ++ (dq :: ':' :: dq :: (h ++ (dq :: cbr :: ']' :: cbr :: []))))) =
      some (Json.arr [hostObj h], cbr :: [])
    rw [pv_arr, A4]
    rfl
  have A6 : parseFields (2 * h.length + 59)
      (dq :: (ingressKey ++ (dq :: ':' :: '[' :: obr :: dq ::
        (hostnameKey ++ (dq :: ':' :: dq :: (h ++ (dq :: cbr :: ']' :: cbr :: []))))))) =
      some ([(ingressKey, Json.arr [hostObj h])], []) :=
    pf_single (2 * h.length + 58) ingressKey
      ('[' :: obr :: dq ::
        (hostnameKey ++ (dq :: ':' :: dq :: (h ++ (dq :: cbr :: ']' :: cbr :: [])))))
      (Json.arr [hostObj h]) [] ingressKey_clean A5
  have A7 : parseValue (2 * h.length + 60)
      (obr :: dq :: (ingressKey ++ (dq :: ':' :: '[' :: obr :: dq ::
        (hostnameKey ++ (dq :: ':' :: dq :: (h ++ (dq :: cbr :: ']' :: cbr :: []))))))) =
      some (ingressObj h, []) := by
    show parseValue ((2 * h.length + 59) + 1)
      (obr :: dq :: (ingressKey ++ (dq :: ':' :: '[' :: obr :: dq ::
        (hostnameKey ++ (dq :: ':' :: dq :: (h ++ (dq :: cbr :: ']' :: cbr :: []))))))) =
      some (ingressObj h, [])
    rw [pv_obj, A6]
    rfl
  have hshape : innerJson h =
      obr :: dq :: (ingressKey ++ (dq :: ':' :: '[' :: obr :: dq ::
        (hostnameKey ++ (dq :: ':' :: dq :: (h ++ (dq :: cbr :: ']' :: cbr :: [])))))) := by
    simp [innerJson, innerHead, innerPre, ingressKey, hostnameKey]
  have hlen : ((obr :: dq :: (ingressKey ++ (dq :: ':' :: '[' :: obr :: dq ::
      (hostnameKey ++ (dq :: ':' :: dq :: (h ++ (dq :: cbr :: ']' :: cbr :: []))))))) :
        List Char).length = 29 + h.length := by
    have e1 : (ingressKey).length = 7 := rfl
    have e2 : (hostnameKey).length = 8 := rfl
    simp [e1, e2]
    omega
  rw [hshape]
  unfold jsonParse
  rw [show 2 * ((obr :: dq :: (ingressKey ++ (dq :: ':' :: '[' :: obr :: dq ::
      (hostnameKey ++ (dq :: ':' :: dq :: (h ++ (dq :: cbr :: ']' :: cbr :: []))))))) :
        List Char).length + 2 = 2 * h.length + 60 from by rw [hlen]; ring]
  rw [A7]
  rfl

/-- The inner config text with an empty ingress array parses to the
object with an empty ingress array. -/
theorem jsonParse_emptyIngressJson : jsonParse emptyIngressJson = some emptyIngressObj := by
  have e1 : parseValue 28 ('[' :: ']' :: (cbr :: [])) = some (Json.arr [], cbr :: []) :=
    pv_arr_empty 27 (cbr :: [])
  have e2 : parseFields 29 (dq :: (ingressKey ++ (dq :: ':' :: '[' :: ']' :: (cbr :: [])))) =
      some ([(ingressKey, Json.arr [])], []) :=
    pf_single 28 ingressKey ('[' :: ']' :: (cbr :: [])) (Json.arr []) [] ingressKey_clean e1
  have e3 : parseValue 30
      (obr :: dq :: (ingressKey ++ (dq :: ':' :: '[' :: ']' :: (cbr :: [])))) =
      some (emptyIngressObj, []) := by
    show parseValue (29 + 1)
      (obr :: dq :: (ingressKey ++ (dq :: ':' :: '[' :: ']' :: (cbr :: [])))) =
      some (emptyIngressObj, [])
    rw [pv_obj, e2]
    rfl
  have hshape : emptyIngressJson =
      obr :: dq :: (ingressKey ++ (dq :: ':' :: '[' :: ']' :: (cbr :: []))) := by
    simp [emptyIngressJson, ingressKey]
  rw [hshape]
  unfold jsonParse
  rw [show 2 * ((obr :: dq :: (ingressKey ++ (dq :: ':' :: '[' :: ']' :: (cbr :: [])))) :
      List Char).length + 2 = 30 from rfl]
  rw [e3]
  rfl

/-- The extraction on the parsed object with a nonempty hostname: the
first ingress hostname, with the https scheme prepended. -/
theorem ingressHostname_ok (h : List Char) (hne : h ≠ []) :
    ingressHostname (ingressObj h) = .ok (some (httpsScheme ++ h)) := by
  cases h with
  | nil => exact absurd rfl hne
  | cons c cs =>
    show Except.ok (some (httpsScheme ++ jsToString (Json.str (c :: cs)))) = _
    rw [show jsToString (Json.str (c :: cs)) = c :: cs from by simp [jsToString]]

/-- The extraction on the parsed object with an empty ingress array
resolves `undefined` without throwing. -/
theorem ingressHostname_empty : ingressHostname emptyIngressObj = .ok none := rfl

/-- The per-line pipeline, composed from its three stages. -/
theorem extractFromLine_eq (line cap : List Char) (v1 v2 : Json) (r : Option (List Char))
    (h1 : configCapture line = some cap)
    (h2 : jsonParse cap = some v1)
    (h3 : jsonParse (jsToString v1) = some v2)
    (h4 : ingressHostname v2 = .ok r) :
    extractFromLine line = some r := by
  simp only [extractFromLine, h1, h2, h3, h4]

/-- C5: for every stderr line made of a marker-free prefix, the
`config="` marker, the doubly-JSON-encoded ingress configuration whose
first (and only) ingress entry carries a nonempty hostname, a closing
quote and any tail, hostname discovery yields `https://` followed by that
hostname; and a line whose decoded config has an empty ingress array
yields the no-hostname outcome (resolves `undefined`) rather than
throwing. -/
theorem c5_hostname_extraction (pre post h : List Char)
    (hpre : ∀ c ∈ pre, c ≠ 'c') (hne : h ≠ [])
    (hok : ∀ c ∈ h, c ≠ dq ∧ c ≠ bs ∧ c ≠ cbr) :
    extractFromLine (pre ++ (configMarker ++ (escEncode (innerJson h) ++ (dq :: post)))) =
      some (some (httpsScheme ++ h)) ∧
    extractFromLine emptyIngressLine = some none := by
  constructor
  · have hcap : configCapture
        (pre ++ (configMarker ++ (escEncode (innerJson h) ++ (dq :: post)))) =
        some (capturedJson (innerJson h)) := by
      rw [configCapture_before pre _ hpre]
      exact configCapture_marker _ _ (captureBody_payload h post hok)
    have h3 : jsonParse (jsToString (Json.str (innerJson h))) = some (ingressObj h) := by
      rw [show jsToString (Json.str (innerJson h)) = innerJson h from by simp [jsToString]]
      exact jsonParse_innerJson h hok
    exact extractFromLine_eq _ _ _ _ _ hcap (jsonParse_capturedJson (innerJson h)) h3
      (ingressHostname_ok h hne)
  · have hcap : configCapture emptyIngressLine = some (capturedJson emptyIngressJson) := rfl
    have h3 : jsonParse (jsToString (Json.str emptyIngressJson)) = some emptyIngressObj := by
      rw [show jsToString (Json.str emptyIngressJson) = emptyIngressJson from by
        simp [jsToString]]
      exact jsonParse_emptyIngressJson
    exact extractFromLine_eq _ _ _ _ _ hcap (jsonParse_capturedJson emptyIngressJson) h3
      ingressHostname_empty

/-- C5 witness: a concrete cloudflared log line carrying hostname
`x.example.com` resolves `https://x.example.com`. -/
theorem c5_witness :
    extractFromLine ("INF ".toList ++ (configMarker ++
        (escEncode (innerJson "x.example.com".toList) ++ (dq :: " version=6".toList)))) =
      some (some (httpsScheme ++ "x.example.com".toList)) ∧
    extractFromLine emptyIngressLine = some none :=
  c5_hostname_extraction "INF ".toList " version=6".toList "x.example.com".toList
    (by decide) (by decide) (by decide)
